import Mathlib

/-!
# Material-balance framework: a shallow embedding in Lean 4

This file embeds the core quantitative engine of the `material-balance-framework`
repository (Python) and proves the spec-level claims about it.  Python floats
are modelled by `ℚ` (exact rational arithmetic stands in for IEEE doubles; none
of the properties proved here depend on rounding), `None` by `Option`, and
raised exceptions by `Except String`.  NumPy library calls that the repository
makes (`np.interp`, `np.argmax`, `np.mean`, …) are embedded by their documented
semantics.

Layout: `src/material_balance/units.py` → section *Units*;
`src/material_balance/pvt_properties.py` → section *PVT*;
`src/material_balance/standing_katz_DAK.py` → section *DAK*;
`src/material_balance/oil_reservoir.py` → section *Oil*;
`src/material_balance/gas_reservoir.py` → section *Gas*.
-/

namespace MaterialBalance

/-! ## Units (`units.py`)

`UnitConverter` functions accept either a scalar or a sequence
(`to_array` wraps a scalar into a one-element array) and return
`to_scalar_if_single` of the converted array.  We embed the scalar-or-array
union as `Value`. -/

/-- A Python value that is either a bare float or a numpy array of floats. -/
inductive Value where
  | scalar (x : ℚ)
  | arr (xs : List ℚ)
  deriving DecidableEq, Repr

/-- The enumeration `UnitSystem` from `units.py`. -/
inductive UnitSystem where
  | METRIC
  | FIELD
  deriving DecidableEq, Repr

/-- `UnitConverter.PSIA_TO_KGFCM2`. -/
def PSIA_TO_KGFCM2 : ℚ := 0.0703069

/-- `UnitConverter.KGFCM2_TO_PSIA`. -/
def KGFCM2_TO_PSIA : ℚ := 14.2233

/-- `UnitConverter.STB_TO_M3`. -/
def STB_TO_M3 : ℚ := 0.158987

/-- `UnitConverter.M3_TO_STB`. -/
def M3_TO_STB : ℚ := 6.28981

/-- `UnitConverter.SCF_TO_M3`. -/
def SCF_TO_M3 : ℚ := 0.0283168

/-- `UnitConverter.M3_TO_SCF`. -/
def M3_TO_SCF : ℚ := 35.3147

/-- `UnitConverter.RB_TO_M3`. -/
def RB_TO_M3 : ℚ := 0.158987

/-- `UnitConverter.M3_TO_RB`. -/
def M3_TO_RB : ℚ := 6.28981

/-- `UnitConverter.SCFSTB_TO_M3M3 = SCF_TO_M3 / STB_TO_M3` (computed, not a
decimal literal, exactly as in the source). -/
def SCFSTB_TO_M3M3 : ℚ := SCF_TO_M3 / STB_TO_M3

/-- `UnitConverter.M3M3_TO_SCFSTB = M3_TO_SCF / M3_TO_STB`. -/
def M3M3_TO_SCFSTB : ℚ := M3_TO_SCF / M3_TO_STB

/-- `UnitConverter.to_array`: wrap a scalar into a one-element array, pass
arrays through. -/
def to_array : Value → List ℚ
  | .scalar x => [x]
  | .arr xs => xs

/-- `UnitConverter.to_scalar_if_single`: a one-element array comes back as the
bare float it holds; every other array is passed through. -/
def to_scalar_if_single (xs : List ℚ) : Value :=
  match xs with
  | [x] => .scalar x
  | _ => .arr xs

/-- Shared body of every array-valued converter in `units.py`:
`to_scalar_if_single` of the input array, scaled by `k` exactly when the tagged
system is `FIELD`.  Each named converter below instantiates it with its own
constant (the identity converters use `k = 1`, which multiplies by `1`:
we keep them literal instead, see `bo_to_metric` etc.). -/
def convertBy (k : ℚ) (v : Value) (sys : UnitSystem) : Value :=
  let p := to_array v
  let result := if sys = .FIELD then p.map (fun x => x * k) else p
  to_scalar_if_single result

/-- `UnitConverter.pressure_to_metric`. -/
def pressure_to_metric (pressure : Value) (from_system : UnitSystem) : Value :=
  convertBy PSIA_TO_KGFCM2 pressure from_system

/-- `UnitConverter.pressure_from_metric`. -/
def pressure_from_metric (pressure : Value) (to_system : UnitSystem) : Value :=
  convertBy KGFCM2_TO_PSIA pressure to_system

/-- `UnitConverter.oil_volume_to_metric` (also used for water volumes). -/
def oil_volume_to_metric (volume : Value) (from_system : UnitSystem) : Value :=
  convertBy STB_TO_M3 volume from_system

/-- `UnitConverter.oil_volume_from_metric`. -/
def oil_volume_from_metric (volume : Value) (to_system : UnitSystem) : Value :=
  convertBy M3_TO_STB volume to_system

/-- `UnitConverter.gas_volume_to_metric`. -/
def gas_volume_to_metric (volume : Value) (from_system : UnitSystem) : Value :=
  convertBy SCF_TO_M3 volume from_system

/-- `UnitConverter.gas_volume_from_metric`. -/
def gas_volume_from_metric (volume : Value) (to_system : UnitSystem) : Value :=
  convertBy M3_TO_SCF volume to_system

/-- `UnitConverter.reservoir_volume_to_metric`. -/
def reservoir_volume_to_metric (volume : Value) (from_system : UnitSystem) : Value :=
  convertBy RB_TO_M3 volume from_system

/-- `UnitConverter.reservoir_volume_from_metric`. -/
def reservoir_volume_from_metric (volume : Value) (to_system : UnitSystem) : Value :=
  convertBy M3_TO_RB volume to_system

/-- `UnitConverter.bo_to_metric`: oil FVF is a dimensionless ratio; both
branches of the source return the array unchanged. -/
def bo_to_metric (bo : Value) (_from_system : UnitSystem) : Value :=
  to_scalar_if_single (to_array bo)

/-- `UnitConverter.bo_from_metric`. -/
def bo_from_metric (bo : Value) (_to_system : UnitSystem) : Value :=
  to_scalar_if_single (to_array bo)

/-- `UnitConverter.bw_to_metric`. -/
def bw_to_metric (bw : Value) (_from_system : UnitSystem) : Value :=
  to_scalar_if_single (to_array bw)

/-- `UnitConverter.bw_from_metric`. -/
def bw_from_metric (bw : Value) (_to_system : UnitSystem) : Value :=
  to_scalar_if_single (to_array bw)

/-- `UnitConverter.bg_to_metric`: gas FVF scales by `RB_TO_M3 / SCF_TO_M3`. -/
def bg_to_metric (bg : Value) (from_system : UnitSystem) : Value :=
  convertBy (RB_TO_M3 / SCF_TO_M3) bg from_system

/-- `UnitConverter.bg_from_metric`: scales by `SCF_TO_M3 / RB_TO_M3`. -/
def bg_from_metric (bg : Value) (to_system : UnitSystem) : Value :=
  convertBy (SCF_TO_M3 / RB_TO_M3) bg to_system

/-- `UnitConverter.rs_to_metric`. -/
def rs_to_metric (rs : Value) (from_system : UnitSystem) : Value :=
  convertBy SCFSTB_TO_M3M3 rs from_system

/-- `UnitConverter.rs_from_metric`. -/
def rs_from_metric (rs : Value) (to_system : UnitSystem) : Value :=
  convertBy M3M3_TO_SCFSTB rs to_system

/-- `UnitConverter.compressibility_to_metric`: `1/psi → 1/(kgf/cm²)` scales by
`KGFCM2_TO_PSIA`. -/
def compressibility_to_metric (comp : Value) (from_system : UnitSystem) : Value :=
  convertBy KGFCM2_TO_PSIA comp from_system

/-- `UnitConverter.compressibility_from_metric`. -/
def compressibility_from_metric (comp : Value) (to_system : UnitSystem) : Value :=
  convertBy PSIA_TO_KGFCM2 comp to_system

/-- `UnitConverter.temperature_to_kelvin` (scalar-only in the source). -/
def temperature_to_kelvin (temp : ℚ) (from_system : UnitSystem) : ℚ :=
  if from_system = .FIELD then (temp - 32) * 5 / 9 + 273.15
  else temp + 273.15

/-- `UnitConverter.temperature_from_kelvin`. -/
def temperature_from_kelvin (temp_k : ℚ) (to_system : UnitSystem) : ℚ :=
  if to_system = .FIELD then (temp_k - 273.15) * 9 / 5 + 32
  else temp_k - 273.15

/-- Read a scalar result back out of a `Value` (the callers of the scalar-shaped
converters in the source immediately use the returned float). -/
def scalarVal : Value → ℚ
  | .scalar x => x
  | .arr xs => xs.headD 0

/-! ## PVT properties (`pvt_properties.py`)

The dataclass `PVTProperties` stores a pressure array plus optional parallel
property arrays (all unit-normalised to metric in `__post_init__`).  The oil
and gas engines unconditionally index `props['Bo']` / `props['Rs']`
(a missing one would be an unhandled `KeyError`), so `Bo` and `Rs` are required
fields of the embedding; the properties that the engines read through
`props.get(..., default)` stay `Option`al.  The columns `co`, `cg` are carried
for completeness but never read by any embedded function. -/

/-- The `PVTProperties` dataclass (post-`__post_init__`: everything metric). -/
structure PVTProperties where
  pressure : List ℚ
  Bo : List ℚ
  Rs : List ℚ
  Bg : Option (List ℚ) := none
  Bw : Option (List ℚ) := none
  cw : Option (List ℚ) := none
  cf : Option (List ℚ) := none
  z : Option (List ℚ) := none
  co : Option (List ℚ) := none
  cg : Option (List ℚ) := none
  deriving Repr, DecidableEq

/-- `np.interp` over an already-increasing sample table, given as
(x, y) pairs: clamp to the boundary value outside the sampled range, linear
interpolation `y0 + (y1 - y0) * (x - x0) / (x1 - x0)` inside a segment. -/
def linInterp (x : ℚ) : List (ℚ × ℚ) → ℚ
  | [] => 0
  | [(_, y0)] => y0
  | (x0, y0) :: (x1, y1) :: rest =>
    if x ≤ x0 then y0
    else if x ≤ x1 then y0 + (y1 - y0) * (x - x0) / (x1 - x0)
    else linInterp x ((x1, y1) :: rest)

/-- `PVTProperties.interpolate_property` on a supplied property column:
if the pressure array is stored in decreasing order
(`pressure[0] > pressure[-1]`) both arrays are reversed before handing off to
`np.interp`, otherwise they are interpolated as stored. -/
def interpolate_property (t : PVTProperties) (prop : List ℚ) (target_pressure : ℚ) : ℚ :=
  if 1 < t.pressure.length ∧ t.pressure.getLastD 0 < t.pressure.headD 0 then
    linInterp target_pressure (t.pressure.reverse.zip prop.reverse)
  else
    linInterp target_pressure (t.pressure.zip prop)

/-- The record returned by `PVTProperties.get_properties_at_pressure`: each
supplied column interpolated at the target pressure, tagged with the pressure
itself. -/
structure PropsAt where
  pressure : ℚ
  Bo : ℚ
  Rs : ℚ
  Bg : Option ℚ
  Bw : Option ℚ
  cw : Option ℚ
  cf : Option ℚ
  z : Option ℚ
  deriving Repr

/-- `PVTProperties.get_properties_at_pressure`. -/
def get_properties_at_pressure (t : PVTProperties) (p : ℚ) : PropsAt where
  pressure := p
  Bo := interpolate_property t t.Bo p
  Rs := interpolate_property t t.Rs p
  Bg := t.Bg.map (fun col => interpolate_property t col p)
  Bw := t.Bw.map (fun col => interpolate_property t col p)
  cw := t.cw.map (fun col => interpolate_property t col p)
  cf := t.cf.map (fun col => interpolate_property t col p)
  z := t.z.map (fun col => interpolate_property t col p)

/-! ## Dranchuk–Abou-Kassem Z-factor solver (`standing_katz_DAK.py`)

`math.exp` is transcendental, so it cannot be a computable `ℚ → ℚ` function;
the embedding abstracts it as a parameter `expQ` and every theorem about the
solver holds for an arbitrary `expQ`.  Everything else in the Newton step is
transcribed literally. -/

/-- DAK constant `A1`. -/
def A1 : ℚ := 0.3265

/-- DAK constant `A2`. -/
def A2 : ℚ := -1.0700

/-- DAK constant `A3`. -/
def A3 : ℚ := -0.5339

/-- DAK constant `A4`. -/
def A4 : ℚ := 0.01569

/-- DAK constant `A5`. -/
def A5 : ℚ := -0.05165

/-- DAK constant `A6`. -/
def A6 : ℚ := 0.5475

/-- DAK constant `A7`. -/
def A7 : ℚ := -0.7361

/-- DAK constant `A8`. -/
def A8 : ℚ := 0.1844

/-- One Newton-Raphson update of `Z_StandingKatz_DAK`'s loop body: computes the
reduced density, `f(Z)`, the analytic derivative `df/dZ`, and returns
`Z - f(Z) / (df/dZ)`. -/
def dakStep (expQ : ℚ → ℚ) (Ppr Tpr Z : ℚ) : ℚ :=
  let rho_r := 0.27 * Ppr / (Z * Tpr)
  let T1 := (A1 + A2 / Tpr + A3 / Tpr ^ 3) * rho_r
  let T2 := (A4 + A5 / Tpr) * rho_r ^ 2
  let T3 := A5 * A6 * rho_r ^ 5 / Tpr
  let T4_num := A7 * rho_r ^ 2 * (1 + A8 * rho_r ^ 2)
  let T4_den := Tpr ^ 3
  let T4_exp := expQ (-A8 * rho_r ^ 2)
  let T4 := T4_num / T4_den * T4_exp
  let f_Z := Z - (1 + T1 + T2 + T3 + T4)
  let drho_r_dZ := -rho_r / Z
  let dT1_drho := A1 + A2 / Tpr + A3 / Tpr ^ 3
  let dT2_drho := 2 * (A4 + A5 / Tpr) * rho_r
  let dT3_drho := 5 * A5 * A6 * rho_r ^ 4 / Tpr
  let dT4_drho_num := A7 * (2 * rho_r + 4 * A8 * rho_r ^ 3)
  let dT4_drho := dT4_drho_num / T4_den * T4_exp - T4_num / T4_den * A8 * 2 * rho_r * T4_exp
  let dF_drho := dT1_drho + dT2_drho + dT3_drho + dT4_drho
  let df_dZ := 1 - dF_drho * drho_r_dZ
  Z - f_Z / df_dZ

/-- The `for i in range(max_iter)` loop of `Z_StandingKatz_DAK`: take a step,
return `Z_new` when `|Z_new - Z| < tol`, carry `Z_new` otherwise; when the
fuel runs out the convergence error reports the last computed `Z`. -/
def zIter (step : ℚ → ℚ) (tol : ℚ) : Nat → ℚ → Except ℚ ℚ
  | 0, Z => .error Z
  | n + 1, Z =>
    let Z_new := step Z
    if |Z_new - Z| < tol then .ok Z_new
    else zIter step tol n Z_new

/-- `Z_StandingKatz_DAK(Ppr, Tpr, tol=1e-12, max_iter=100)`: Newton-Raphson
from `Z₀ = 1.0` (the defaults are supplied by the caller here).  `.ok` is the
converged return, `.error` carries the last `Z` of the failed solve. -/
def Z_StandingKatz_DAK (expQ : ℚ → ℚ) (Ppr Tpr tol : ℚ) (max_iter : Nat) : Except ℚ ℚ :=
  zIter (dakStep expQ Ppr Tpr) tol max_iter 1

/-! ## Oil reservoir (`oil_reservoir.py`) -/

/-- The `ProductionData` dataclass after `__post_init__` (parallel arrays,
already unit-normalised to metric exactly like the PVT table). -/
structure ProductionData where
  time : List ℚ
  Np : List ℚ
  Gp : List ℚ
  Wp : List ℚ
  pressure : List ℚ
  deriving Repr, DecidableEq

/-- The `OilReservoir` instance state: the construction-time fields plus the
mutable "last calculated values" (`None` until the first single-point solve;
kept for backward compatibility in the source). -/
structure OilReservoir where
  pvt : PVTProperties
  Pi : ℚ
  T : ℚ
  m : ℚ
  aquifer_influx : Bool
  Boi : ℚ
  Rsi : ℚ
  Bgi : Option ℚ
  Eo : Option ℚ := none
  Eg : Option ℚ := none
  Efw : Option ℚ := none
  Et : Option ℚ := none
  F : Option ℚ := none
  last_pressure : Option ℚ := none
  deriving Repr, DecidableEq

/-- `OilReservoir.__init__`: convert the inputs to internal metric units, then
cache `Boi`, `Rsi`, `Bgi` from the PVT table at the initial pressure.  The
last-calculated-value fields start as `None`. -/
def mkOilReservoir (pvt : PVTProperties) (initial_pressure reservoir_temperature m : ℚ)
    (aquifer_influx : Bool) (unit_system : UnitSystem) : OilReservoir :=
  let Pi := scalarVal (pressure_to_metric (.scalar initial_pressure) unit_system)
  let initial_props := get_properties_at_pressure pvt Pi
  { pvt := pvt
    Pi := Pi
    T := temperature_to_kelvin reservoir_temperature unit_system
    m := m
    aquifer_influx := aquifer_influx
    Boi := initial_props.Bo
    Rsi := initial_props.Rs
    Bgi := initial_props.Bg }

/-- `OilReservoir.calculate_expansion_terms(pressure)` → `(Eo, Eg, Efw)`. -/
def calculate_expansion_terms (r : OilReservoir) (pressure : ℚ) : ℚ × ℚ × ℚ :=
  let props := get_properties_at_pressure r.pvt pressure
  let Bo := props.Bo
  let Rs := props.Rs
  let Bg := props.Bg.getD 0
  let Eo := (Bo - r.Boi) + (r.Rsi - Rs) * Bg
  let Eg :=
    match r.Bgi with
    | some Bgi => if 0 < r.m then r.Boi * (Bg / Bgi - 1) else 0
    | none => 0
  let cw := props.cw.getD 43e-6
  let cf := props.cf.getD 43e-6
  let Swi : ℚ := 0.2
  let delta_P := r.Pi - pressure
  let Efw := (1 + r.m) * r.Boi * (cw * Swi + cf) * delta_P
  (Eo, Eg, Efw)

/-- `OilReservoir.calculate_STOIIP(Np, Gp, Wp, pressure, We)`: returns the
updated instance (the last-calculated-value fields are overwritten *before*
the `Et ≤ 0` check) together with the `.ok N` return or the raised
`ValueError`. -/
def calculate_STOIIP (r : OilReservoir) (Np Gp Wp pressure We : ℚ) :
    OilReservoir × Except String ℚ :=
  let props := get_properties_at_pressure r.pvt pressure
  let Bo := props.Bo
  let Rs := props.Rs
  let Bg := props.Bg.getD 0
  let Bw := props.Bw.getD 1
  let E := calculate_expansion_terms r pressure
  let Eo := E.1
  let Eg := E.2.1
  let Efw := E.2.2
  let F := Np * Bo + (Gp - Np * Rs) * Bg + Wp * Bw - We
  let Et := Eo + r.m * Eg + Efw
  let updated := { r with
    Eo := some Eo, Eg := some Eg, Efw := some Efw,
    Et := some Et, F := some F, last_pressure := some pressure }
  if Et ≤ 0 then
    (updated, .error "Total expansion is non-positive. Check pressure data and PVT properties.")
  else
    (updated, .ok (F / Et))

/-! ### Batch statistics (`np.mean` / `np.median` / `np.std` / `np.min` / `np.max`)

`np.std` is the square root of the population variance and the coefficient of
variation is `std / mean`; square roots leave `ℚ`, so the statistics record
stores the population `variance` (of which `std` is the real square root and
`cv² = variance / mean²`).  Everything else is exact. -/

/-- Minimum of a nonempty list (`np.min`). -/
def minList : List ℚ → ℚ
  | [] => 0
  | x :: xs => xs.foldl min x

/-- Maximum of a nonempty list (`np.max`). -/
def maxList : List ℚ → ℚ
  | [] => 0
  | x :: xs => xs.foldl max x

/-- Arithmetic mean (`np.mean`). -/
def meanList (l : List ℚ) : ℚ := l.sum / l.length

/-- `np.median`: middle element of the sorted data, or the average of the two
middle elements when the count is even. -/
def medianList (l : List ℚ) : ℚ :=
  let s := l.mergeSort (fun a b => a ≤ b)
  if l.length % 2 = 1 then s.getD (l.length / 2) 0
  else (s.getD (l.length / 2 - 1) 0 + s.getD (l.length / 2) 0) / 2

/-- Population variance (`np.std` squared). -/
def varianceList (l : List ℚ) : ℚ :=
  (l.map (fun x => (x - meanList l) ^ 2)).sum / l.length

/-- The statistics dictionary built by the batch solvers. -/
structure BatchStats where
  mean : ℚ
  median : ℚ
  variance : ℚ
  min : ℚ
  max : ℚ
  count : Nat
  deriving Repr, DecidableEq

/-- The `statistics` dictionary computed from the valid entries of a batch. -/
def computeStats (valid : List ℚ) : BatchStats where
  mean := meanList valid
  median := medianList valid
  variance := varianceList valid
  min := minList valid
  max := maxList valid
  count := valid.length

/-- The per-point try/except in `calculate_STOIIP_from_production_data`'s loop:
`.ok` values are recorded, a raised per-point error becomes the `np.nan`
invalid marker (modelled `none`) after the logged warning.  The single-point
solve reads only the construction-time fields of the reservoir (the fields it
overwrites are write-only during the loop), so evaluating every point against
`r` is the loop's behaviour. -/
def batchPoint (r : OilReservoir) (pd : ProductionData) (We_values : List ℚ) (i : Nat) :
    Except String ℚ :=
  (calculate_STOIIP r (pd.Np.getD i 0) (pd.Gp.getD i 0) (pd.Wp.getD i 0)
    (pd.pressure.getD i 0) (We_values.getD i 0)).2

/-- `OilReservoir.calculate_STOIIP_from_production_data`: per-point array of
`N` (with `none` as the NaN marker) plus the statistics over the valid points;
raises the aggregate `ValueError` exactly when no point is valid. -/
def calculate_STOIIP_from_production_data (r : OilReservoir) (pd : ProductionData)
    (We_values : List ℚ) : Except String (List (Option ℚ) × BatchStats) :=
  let n_points := pd.time.length
  let N_values := (List.range n_points).map (fun i =>
    match batchPoint r pd We_values i with
    | .ok v => some v
    | .error _ => none)
  let valid_N := N_values.filterMap id
  if valid_N.isEmpty then .error "No valid STOIIP calculations were possible"
  else .ok (N_values, computeStats valid_N)

/-! ### Gas-cap calibration (`determine_optimal_m`) -/

/-- The underground-withdrawal formula
`F = Np*Bo + (Gp - Np*Rs)*Bg + Wp*Bw - We` evaluated at one pressure point
(shared verbatim by `calculate_STOIIP`, `plot_gas_cap_determination` and
`determine_optimal_m`). -/
def F_at (r : OilReservoir) (Np Gp Wp pressure We : ℚ) : ℚ :=
  let props := get_properties_at_pressure r.pvt pressure
  let Bo := props.Bo
  let Rs := props.Rs
  let Bg := props.Bg.getD 0
  let Bw := props.Bw.getD 1
  Np * Bo + (Gp - Np * Rs) * Bg + Wp * Bw - We

/-- Degree-1 `np.polyfit` (ordinary least squares line), in closed form:
`slope = (n·Σxy − Σx·Σy) / (n·Σx² − (Σx)²)`, `intercept = (Σy − slope·Σx)/n`.
This is the unique least-squares solution whenever the x-values are not all
equal. -/
def polyfit1 (xs ys : List ℚ) : ℚ × ℚ :=
  let n : ℚ := xs.length
  let sx := xs.sum
  let sy := ys.sum
  let sxy := (List.zipWith (fun a b => a * b) xs ys).sum
  let sxx := (xs.map (fun a => a ^ 2)).sum
  let slope := (n * sxy - sx * sy) / (n * sxx - sx ^ 2)
  (slope, (sy - slope * sx) / n)

/-- The per-candidate body of `determine_optimal_m`'s loop: for more than one
point, fit `F = slope·E + intercept` and return `R² = 1 − SS_res/SS_tot`
(0 when `SS_tot = 0`); with one point or none, append 0. -/
def r_squared_for (E_total F_values : List ℚ) : ℚ :=
  if 1 < E_total.length then
    let fit := polyfit1 E_total F_values
    let F_fit := E_total.map (fun e => fit.1 * e + fit.2)
    let ss_res := (List.zipWith (fun f ff => (f - ff) ^ 2) F_values F_fit).sum
    let ss_tot := (F_values.map (fun f => (f - meanList F_values) ^ 2)).sum
    if ss_tot ≠ 0 then 1 - ss_res / ss_tot else 0
  else 0

/-- `np.argmax`: the index of the maximum value; with several occurrences of
the maximum, the first one. -/
def argmaxList (l : List ℚ) : Nat :=
  l.indexOf (maxList l)

/-- `OilReservoir.determine_optimal_m(production_data, m_values, We_values)`
(the plotting/printing side effects are dropped): returns
`(m_values[argmax R²], the R² curve)`. -/
def determine_optimal_m (r : OilReservoir) (pd : ProductionData) (m_values : List ℚ)
    (We_values : List ℚ) : ℚ × List ℚ :=
  let n_points := pd.time.length
  let F_values := (List.range n_points).map (fun i =>
    F_at r (pd.Np.getD i 0) (pd.Gp.getD i 0) (pd.Wp.getD i 0)
      (pd.pressure.getD i 0) (We_values.getD i 0))
  let Eo_values := (List.range n_points).map (fun i =>
    (calculate_expansion_terms r (pd.pressure.getD i 0)).1)
  let Eg_values := (List.range n_points).map (fun i =>
    (calculate_expansion_terms r (pd.pressure.getD i 0)).2.1)
  let r_squared_values := m_values.map (fun m =>
    r_squared_for (List.zipWith (fun eo eg => eo + m * eg) Eo_values Eg_values) F_values)
  (m_values.getD (argmaxList r_squared_values) 0, r_squared_values)

/-! ## Gas reservoir (`gas_reservoir.py`) -/

/-- The `GasReservoir` instance state after a successful `__init__`. -/
structure GasReservoir where
  pvt : PVTProperties
  Pi : ℚ
  T : ℚ
  aquifer_influx : Bool
  Bgi : ℚ
  Zi : ℚ
  deriving Repr, DecidableEq

/-- `GasReservoir.__init__`: caches `Bgi` and `Zi` from the PVT table at the
initial pressure and raises when either is unavailable. -/
def mkGasReservoir (pvt : PVTProperties) (initial_pressure reservoir_temperature : ℚ)
    (aquifer_influx : Bool) (unit_system : UnitSystem) : Except String GasReservoir :=
  let Pi := scalarVal (pressure_to_metric (.scalar initial_pressure) unit_system)
  let initial_props := get_properties_at_pressure pvt Pi
  match initial_props.Bg, initial_props.z with
  | none, _ => .error "Gas formation volume factor (Bg) must be provided in PVT properties"
  | some _, none => .error "Gas compressibility factor (z) must be provided in PVT properties"
  | some Bgi, some Zi =>
    .ok { pvt := pvt
          Pi := Pi
          T := temperature_to_kelvin reservoir_temperature unit_system
          aquifer_influx := aquifer_influx
          Bgi := Bgi
          Zi := Zi }

/-- `GasReservoir.calculate_GIIP(Gp, pressure, Wp=0, We=0)`.  The `Bg` column
is present on every reservoir `__init__` lets through; its absence is the
unreachable `KeyError` branch. -/
def calculate_GIIP (g : GasReservoir) (Gp pressure Wp We : ℚ) : Except String ℚ :=
  match g.pvt.Bg with
  | none => .error "KeyError: Bg"
  | some bgcol =>
    let Bg := interpolate_property g.pvt bgcol pressure
    let props := get_properties_at_pressure g.pvt pressure
    let Bw := props.Bw.getD 1
    let nd :=
      if g.aquifer_influx ∨ 0 < We ∨ 0 < Wp then
        (Gp * Bg - We + Wp * Bw, Bg - g.Bgi)
      else
        (Gp, Bg / g.Bgi - 1)
    if |nd.2| < 1e-10 then
      .error "Denominator in GIIP calculation is too small. Check if pressure has changed from initial pressure."
    else
      .ok (nd.1 / nd.2)

/-! ## Concrete fixtures for witnesses and counterexamples -/

/-- A small concrete oil PVT table (metric, increasing pressure):
at `Pi = 200` it yields `Boi = 1.1`, `Rsi = 60`, `Bgi = 0.005`. -/
def witnessPVT : PVTProperties :=
  { pressure := [100, 200], Bo := [1.2, 1.1], Rs := [50, 60],
    Bg := some [0.01, 0.005], Bw := some [1, 1] }

/-! ## Derived quantities used by the theorems -/

/-- Total expansion `Et = Eo + m·Eg + Efw` at a pressure (the quantity the
single-point solve guards). -/
def Et_at (r : OilReservoir) (pressure : ℚ) : ℚ :=
  let E := calculate_expansion_terms r pressure
  E.1 + r.m * E.2.1 + E.2.2

/-! ## Spec-side formulas (§4.4 of the specification, written from its words,
to be compared against the embedded source functions) -/

/-- The §4.4 expansion-term formulas exactly as the specification words them:
`Eo = (Bo(p) − Boi) + (Rsi − Rs(p))·Bg(p)`;
`Eg = Boi·(Bg(p)/Bgi − 1)` if `m > 0` and `Bgi` known, else 0;
`Efw = (1+m)·Boi·(cw·Swi + cf)·(Pi − p)` with `Swi = 0.2` and `cw`, `cf`
from the table at `p`, defaulting to `43e-6`. -/
def specExpansionTerms (r : OilReservoir) (p : ℚ) : ℚ × ℚ × ℚ :=
  let props := get_properties_at_pressure r.pvt p
  let Bo := props.Bo
  let Rs := props.Rs
  let Bg := props.Bg.getD 0
  let cw := props.cw.getD 43e-6
  let cf := props.cf.getD 43e-6
  ( (Bo - r.Boi) + (r.Rsi - Rs) * Bg,
    if 0 < r.m ∧ r.Bgi.isSome then r.Boi * (Bg / r.Bgi.getD 0 - 1) else 0,
    (1 + r.m) * r.Boi * (cw * 0.2 + cf) * (r.Pi - p) )

/-- **C5.** `calculate_expansion_terms` returns exactly the §4.4 formulas:
oil+liberated-gas expansion `(Bo(p) − Boi) + (Rsi − Rs(p))·Bg(p)`; gas-cap
expansion `Boi·(Bg(p)/Bgi − 1)` when `m > 0` and `Bgi` is known and `0`
otherwise; and `Efw = (1+m)·Boi·(cw·Swi + cf)·(Pi − p)` with `Swi` fixed at
`0.2` and `cw`, `cf` interpolated from the PVT table at `p`, each defaulting
to `43e-6` when the column was not supplied. -/
theorem expansion_terms_match_spec (r : OilReservoir) (p : ℚ) :
    calculate_expansion_terms r p = specExpansionTerms r p := by
  unfold calculate_expansion_terms specExpansionTerms
  rcases hB : r.Bgi with _ | b <;> by_cases hm : 0 < r.m <;>
    simp [hB, hm]

/-- `calculate_STOIIP`, repackaged: the updated state is unconditional, the
returned value is `F/Et` guarded by the `Et ≤ 0` domain check. -/
theorem calculate_STOIIP_eq (r : OilReservoir) (Np Gp Wp p We : ℚ) :
    calculate_STOIIP r Np Gp Wp p We =
      ({ r with
          Eo := some (calculate_expansion_terms r p).1,
          Eg := some (calculate_expansion_terms r p).2.1,
          Efw := some (calculate_expansion_terms r p).2.2,
          Et := some (Et_at r p),
          F := some (F_at r Np Gp Wp p We),
          last_pressure := some p },
        if Et_at r p ≤ 0 then
          .error "Total expansion is non-positive. Check pressure data and PVT properties."
        else .ok (F_at r Np Gp Wp p We / Et_at r p)) := by
  simp only [calculate_STOIIP, Et_at, F_at]
  split <;> rfl

/-- **C10.** Every call to `calculate_STOIIP` — the failing `Et ≤ 0` call
included — overwrites the instance fields `Eo`, `Eg`, `Efw`, `Et`, `F` and
`last_pressure` with the values computed for that call; on a failing call the
state is updated to the failing point's values and the error is raised
afterwards (the operation is not atomic in the last-calculated-value
fields). -/
theorem stoiip_overwrites_state (r : OilReservoir) (Np Gp Wp p We : ℚ) :
    (calculate_STOIIP r Np Gp Wp p We).1 = { r with
      Eo := some (calculate_expansion_terms r p).1,
      Eg := some (calculate_expansion_terms r p).2.1,
      Efw := some (calculate_expansion_terms r p).2.2,
      Et := some (Et_at r p),
      F := some (F_at r Np Gp Wp p We),
      last_pressure := some p } ∧
    (Et_at r p ≤ 0 →
      (calculate_STOIIP r Np Gp Wp p We).2 =
        .error "Total expansion is non-positive. Check pressure data and PVT properties.") := by
  rw [calculate_STOIIP_eq]
  exact ⟨rfl, fun h => by rw [if_pos h]⟩

/-- The two unit-system tags are distinct (used to evaluate the
`if sys = FIELD` branches on concrete fixtures). -/
theorem metric_ne_field : UnitSystem.METRIC ≠ UnitSystem.FIELD :=
  fun h => UnitSystem.noConfusion h

/-- The constructed witness reservoir, with its cached initial properties
spelled out. -/
def witnessOil : OilReservoir :=
  { pvt := witnessPVT, Pi := 200, T := 333.15, m := 0.2, aquifer_influx := false,
    Boi := 1.1, Rsi := 60, Bgi := some 0.005 }

/-- `OilReservoir.__init__` on the witness table caches exactly the spelled-out
initial properties. -/
theorem mkOilReservoir_witness :
    mkOilReservoir witnessPVT 200 60 0.2 false .METRIC = witnessOil := by
  norm_num [mkOilReservoir, witnessOil, witnessPVT, get_properties_at_pressure,
    interpolate_property, linInterp, scalarVal, pressure_to_metric, convertBy,
    to_array, to_scalar_if_single, temperature_to_kelvin, List.getLastD, List.headD,
    metric_ne_field]

/-- At the initial pressure the witness reservoir's total expansion vanishes. -/
theorem Et_at_witness_initial : Et_at witnessOil 200 = 0 := by
  norm_num [Et_at, witnessOil, witnessPVT, calculate_expansion_terms,
    get_properties_at_pressure, interpolate_property, linInterp,
    List.getLastD, List.headD]

/-- Closed-form instance of C10 at a concrete reservoir and point, with the
`Et ≤ 0` hypothesis discharged by evaluation (the solve at the initial
pressure fails, yet `last_pressure` is overwritten with it). -/
theorem stoiip_overwrites_state_witness :
    Et_at witnessOil 200 ≤ 0 ∧
    ((calculate_STOIIP witnessOil 5 300 0 200 0).1.last_pressure = some 200 ∧
      (calculate_STOIIP witnessOil 5 300 0 200 0).2 =
        .error "Total expansion is non-positive. Check pressure data and PVT properties.") := by
  refine ⟨le_of_eq Et_at_witness_initial, ?_, ?_⟩
  · exact congrArg OilReservoir.last_pressure
      (stoiip_overwrites_state witnessOil 5 300 0 200 0).1
  · exact (stoiip_overwrites_state witnessOil 5 300 0 200 0).2
      (le_of_eq Et_at_witness_initial)

/-- At the initial pressure of a freshly constructed reservoir every expansion
term vanishes (the cached `Boi`, `Rsi`, `Bgi` are the table's interpolants at
`Pi`), provided the cached `Bgi`, when present, is nonzero — a zero `Bgi`
would be a `ZeroDivisionError` in the source rather than a value. -/
theorem Et_at_mk_initial (pvt : PVTProperties) (P0 T0 m0 : ℚ) (aq : Bool) (us : UnitSystem)
    (hb : ∀ b, (mkOilReservoir pvt P0 T0 m0 aq us).Bgi = some b → b ≠ 0) :
    Et_at (mkOilReservoir pvt P0 T0 m0 aq us) (mkOilReservoir pvt P0 T0 m0 aq us).Pi = 0 := by
  rcases hBg : pvt.Bg with _ | col
  · simp only [Et_at, calculate_expansion_terms, mkOilReservoir, get_properties_at_pressure,
      hBg, Option.map_none']
    ring
  · have hv : interpolate_property pvt col
        (scalarVal (pressure_to_metric (.scalar P0) us)) ≠ 0 := by
      apply hb
      simp [mkOilReservoir, get_properties_at_pressure, hBg]
    by_cases hm : 0 < m0 <;>
      simp only [Et_at, calculate_expansion_terms, mkOilReservoir, get_properties_at_pressure,
        hBg, Option.map_some', Option.getD_some, hm, if_pos, if_neg, ite_true, ite_false,
        div_self hv] <;>
      ring

/-- **C1.** A single-point oil solve fails with the domain error exactly when
the total expansion `Et = Eo + m·Eg + Efw` is nonpositive, and otherwise
returns `N = F / Et`; in particular, a solve at the initial pressure of a
constructed reservoir (where `Et = 0`) raises the domain error instead of
returning a value. -/
theorem stoiip_domain_error (r : OilReservoir) (Np Gp Wp p We : ℚ) :
    ((Et_at r p ≤ 0 →
        (calculate_STOIIP r Np Gp Wp p We).2 =
          .error "Total expansion is non-positive. Check pressure data and PVT properties.") ∧
      (0 < Et_at r p →
        (calculate_STOIIP r Np Gp Wp p We).2 =
          .ok (F_at r Np Gp Wp p We / Et_at r p))) ∧
    (∀ (pvt : PVTProperties) (P0 T0 m0 : ℚ) (aq : Bool) (us : UnitSystem),
      r = mkOilReservoir pvt P0 T0 m0 aq us →
      (∀ b, r.Bgi = some b → b ≠ 0) → p = r.Pi →
      (calculate_STOIIP r Np Gp Wp p We).2 =
        .error "Total expansion is non-positive. Check pressure data and PVT properties.") := by
  have hsplit : (calculate_STOIIP r Np Gp Wp p We).2 =
      if Et_at r p ≤ 0 then
        .error "Total expansion is non-positive. Check pressure data and PVT properties."
      else .ok (F_at r Np Gp Wp p We / Et_at r p) := by
    rw [calculate_STOIIP_eq]
  refine ⟨⟨fun h => by rw [hsplit, if_pos h], fun h => by rw [hsplit, if_neg (not_le.mpr h)]⟩,
    fun pvt P0 T0 m0 aq us hr hb hp => ?_⟩
  rw [hsplit, if_pos ?_]
  subst hr hp
  exact le_of_eq (Et_at_mk_initial pvt P0 T0 m0 aq us hb)

/-- Closed-form instance of C1: on the witness reservoir away from the initial
pressure `Et > 0` and the solve returns `F / Et`. -/
theorem stoiip_domain_error_witness :
    0 < Et_at witnessOil 100 ∧
    (calculate_STOIIP witnessOil 5 300 0 100 0).2 =
      .ok (F_at witnessOil 5 300 0 100 0 / Et_at witnessOil 100) := by
  have h : (0 : ℚ) < Et_at witnessOil 100 := by
    norm_num [Et_at, witnessOil, witnessPVT, calculate_expansion_terms,
      get_properties_at_pressure, interpolate_property, linInterp,
      List.getLastD, List.headD]
  exact ⟨h, (stoiip_domain_error witnessOil 5 300 0 100 0).1.2 h⟩

/-- The Newton loop either returns a value whose step from the previous
iterate met the tolerance, or exhausts its fuel and reports the `fuel`-fold
iterate of the start value (the last computed `Z`). -/
theorem zIter_spec (step : ℚ → ℚ) (tol : ℚ) :
    ∀ (fuel : Nat) (Z0 : ℚ),
      (∃ Z, zIter step tol fuel Z0 = .ok (step Z) ∧ |step Z - Z| < tol) ∨
        zIter step tol fuel Z0 = .error (step^[fuel] Z0) := by
  intro fuel
  induction fuel with
  | zero => exact fun Z0 => .inr rfl
  | succ n ih =>
    intro Z0
    by_cases h : |step Z0 - Z0| < tol
    · exact .inl ⟨Z0, by simp [zIter, if_pos h], h⟩
    · have hz : zIter step tol (n + 1) Z0 = zIter step tol n (step Z0) := by
        simp [zIter, if_neg h]
      rcases ih (step Z0) with ⟨Z, hok, htol⟩ | herr
      · exact .inl ⟨Z, hz.trans hok, htol⟩
      · right
        rw [hz, herr, Function.iterate_succ_apply]

/-- **C4.** For every input `(Ppr, Tpr)`, tolerance and iteration cap, and
every interpretation of `math.exp`, `Z_StandingKatz_DAK` either returns a
`Z_new` whose Newton step from the previous iterate satisfied
`|Z_new − Z| < tol` (so it never returns without meeting the tolerance), or
fails with the convergence error reporting the last computed `Z` — the
`cap`-fold Newton iterate of the starting guess `1.0` — so the loop never runs
beyond the cap. -/
theorem dak_solver_spec (expQ : ℚ → ℚ) (Ppr Tpr tol : ℚ) (cap : Nat) :
    (∃ Z, Z_StandingKatz_DAK expQ Ppr Tpr tol cap = .ok (dakStep expQ Ppr Tpr Z) ∧
        |dakStep expQ Ppr Tpr Z - Z| < tol) ∨
      Z_StandingKatz_DAK expQ Ppr Tpr tol cap = .error ((dakStep expQ Ppr Tpr)^[cap] 1) :=
  zIter_spec (dakStep expQ Ppr Tpr) tol cap 1

/-- The `try/except` conversion of a per-point solve into an entry of the
per-point result array: `.ok` keeps the value, a raised error becomes the
`np.nan` marker. -/
def exceptToOption : Except ε α → Option α
  | .ok a => some a
  | .error _ => none

/-- `getD` through `map` over `range`. -/
theorem getD_map_range (f : Nat → α) (n i : Nat) (hi : i < n) (d : α) :
    ((List.range n).map f).getD i d = f i := by
  rw [List.getD_eq_getElem?_getD]
  simp [List.getElem?_range, hi]

/-- **C2.** In a batch oil solve, a point whose single-point solve raises is
recorded as the invalid marker (NaN) and the batch does not abort: a
successful batch returns one entry per production point, the entry being
exactly the per-point solve's outcome, and its statistics are computed from
the valid entries only; the batch fails with the aggregate error exactly when
zero points are valid. -/
theorem batch_partial_failure (r : OilReservoir) (pd : ProductionData) (We_values : List ℚ) :
    (∀ Ns st, calculate_STOIIP_from_production_data r pd We_values = .ok (Ns, st) →
      Ns.length = pd.time.length ∧
      (∀ i, i < pd.time.length →
        Ns.getD i none = exceptToOption (batchPoint r pd We_values i)) ∧
      st = computeStats (Ns.filterMap id)) ∧
    ((∃ e, calculate_STOIIP_from_production_data r pd We_values = .error e) ↔
      ∀ i, i < pd.time.length → exceptToOption (batchPoint r pd We_values i) = none) := by
  have hmark : ∀ i, (match batchPoint r pd We_values i with
      | .ok v => some v
      | .error _ => none) = exceptToOption (batchPoint r pd We_values i) := by
    intro i
    cases batchPoint r pd We_values i <;> rfl
  simp only [calculate_STOIIP_from_production_data]
  by_cases he : (((List.range pd.time.length).map (fun i =>
      match batchPoint r pd We_values i with
      | .ok v => some v
      | .error _ => none)).filterMap id).isEmpty
  · rw [if_pos he]
    constructor
    · intro Ns st h
      exact absurd h (by simp)
    · rw [List.isEmpty_iff, List.filterMap_eq_nil_iff] at he
      constructor
      · intro _ i hi
        have hx := he _ (List.mem_map_of_mem _ (List.mem_range.mpr hi))
        rwa [hmark i] at hx
      · intro _
        exact ⟨_, rfl⟩
  · rw [if_neg he]
    constructor
    · rintro Ns st h
      injection h with h
      injection h with h1 h2
      subst h1 h2
      refine ⟨by simp, fun i hi => ?_, rfl⟩
      rw [getD_map_range _ _ _ hi, hmark i]
    · constructor
      · rintro ⟨e, h⟩
        cases h
      · intro hall
        exfalso
        apply he
        rw [List.isEmpty_iff, List.filterMap_eq_nil_iff]
        intro a ha
        rcases List.mem_map.mp ha with ⟨i, hi, rfl⟩
        rw [hmark i]
        exact hall i (List.mem_range.mp hi)

/-- A two-point production history on the witness reservoir: the first point
solves, the second sits at the initial pressure and raises the domain error. -/
def witnessPD : ProductionData :=
  { time := [1, 2], Np := [5, 5], Gp := [300, 300], Wp := [0, 0], pressure := [100, 200] }

/-- The first witness point solves to `F/Et = 6.5/0.4268112`. -/
theorem batchPoint_witness_0 :
    batchPoint witnessOil witnessPD [0, 0] 0 = .ok (4062500 / 266757) := by
  norm_num [batchPoint, witnessPD, calculate_STOIIP, witnessOil, witnessPVT,
    calculate_expansion_terms, get_properties_at_pressure, interpolate_property,
    linInterp, List.getLastD, List.headD, List.getD]

/-- The second witness point (at the initial pressure) raises. -/
theorem batchPoint_witness_1 :
    batchPoint witnessOil witnessPD [0, 0] 1 =
      .error "Total expansion is non-positive. Check pressure data and PVT properties." := by
  norm_num [batchPoint, witnessPD, calculate_STOIIP, witnessOil, witnessPVT,
    calculate_expansion_terms, get_properties_at_pressure, interpolate_property,
    linInterp, List.getLastD, List.headD, List.getD]

/-- The witness batch: one valid entry, one NaN marker, statistics over the
single valid value. -/
theorem batch_eval_witness :
    calculate_STOIIP_from_production_data witnessOil witnessPD [0, 0] =
      .ok ([some (4062500 / 266757), none], computeStats [4062500 / 266757]) := by
  simp [calculate_STOIIP_from_production_data, show witnessPD.time.length = 2 from rfl,
    List.range_succ, batchPoint_witness_0, batchPoint_witness_1]

/-- Closed-form instance of C2 on the witness batch: the raising point is
recorded as the invalid marker and the statistics come from the valid entries
only. -/
theorem batch_partial_failure_witness :
    ([some ((4062500 : ℚ) / 266757), none] : List (Option ℚ)).getD 1 none =
        exceptToOption (batchPoint witnessOil witnessPD [0, 0] 1) ∧
      computeStats [(4062500 : ℚ) / 266757] =
        computeStats (([some ((4062500 : ℚ) / 266757), none] : List (Option ℚ)).filterMap id) := by
  have h := (batch_partial_failure witnessOil witnessPD [0, 0]).1 _ _ batch_eval_witness
  exact ⟨(h.2.1 1 (by norm_num [witnessPD])).symm.symm, h.2.2⟩

/-- A small concrete gas PVT table: at `Pi = 200` it yields `Bgi = 1`,
`Zi = 0.8`; at `p = 100` the gas FVF is `2`.  (The oil columns `Bo`/`Rs` are
unused by the gas engine; the empty column stands in for their absence.) -/
def gasPVT : PVTProperties :=
  { pressure := [100, 200], Bo := [], Rs := [],
    Bg := some [2, 1], z := some [0.9, 0.8] }

/-- The constructed gas witness reservoir. -/
def witnessGas : GasReservoir :=
  { pvt := gasPVT, Pi := 200, T := 333.15, aquifer_influx := false, Bgi := 1, Zi := 0.8 }

/-- `GasReservoir.__init__` on the gas witness table caches exactly the
spelled-out initial properties. -/
theorem mkGasReservoir_witness :
    mkGasReservoir gasPVT 200 60 false .METRIC = .ok witnessGas := by
  norm_num [mkGasReservoir, witnessGas, gasPVT, get_properties_at_pressure,
    interpolate_property, linInterp, scalarVal, pressure_to_metric, convertBy,
    to_array, to_scalar_if_single, temperature_to_kelvin, List.getLastD, List.headD,
    metric_ne_field]

/-- **C6 (as stated) is false**: with `Wp = -1` (nonzero) and the flag off, the
code takes the dry-gas branch and returns `Gp/(Bg/Bgi − 1) = 10`, not the
claimed water-influx form `(Gp·Bg − We + Wp·Bw)/(Bg − Bgi) = 19`. -/
theorem gas_giip_nonzero_Wp_counterexample :
    calculate_GIIP witnessGas 10 100 (-1) 0 = .ok 10 ∧
      (-1 : ℚ) ≠ 0 ∧
      (Except.ok ((10 * interpolate_property gasPVT [2, 1] 100 - 0 + (-1) * 1) /
          (interpolate_property gasPVT [2, 1] 100 - witnessGas.Bgi)) :
        Except String ℚ) ≠ .ok 10 := by
  have hBg : interpolate_property gasPVT [2, 1] 100 = 2 := by
    norm_num [gasPVT, interpolate_property, linInterp, List.getLastD, List.headD]
  refine ⟨?_, by norm_num, ?_⟩
  · norm_num [calculate_GIIP, witnessGas, gasPVT, interpolate_property, linInterp,
      get_properties_at_pressure, List.getLastD, List.headD]
  · rw [hBg]
    norm_num [witnessGas]

/-- **C6 (amended).** For a gas single-point solve whose table supplies the
`Bg` column: when the aquifer-influx flag is active or `Wp` or `We` is
*strictly positive* the result is `G = (Gp·Bg(p) − We + Wp·Bw(p))/(Bg(p) − Bgi)`,
otherwise the dry-gas form `G = Gp/(Bg(p)/Bgi − 1)` is used; in either case
the call fails with the domain error exactly when the magnitude of that
branch's denominator is below `1e-10`. -/
theorem gas_giip_spec (g : GasReservoir) (bgcol : List ℚ) (hbg : g.pvt.Bg = some bgcol)
    (Gp p Wp We : ℚ) :
    calculate_GIIP g Gp p Wp We =
      (if g.aquifer_influx = true ∨ 0 < We ∨ 0 < Wp then
        if |interpolate_property g.pvt bgcol p - g.Bgi| < 1e-10 then
          .error "Denominator in GIIP calculation is too small. Check if pressure has changed from initial pressure."
        else
          .ok ((Gp * interpolate_property g.pvt bgcol p - We +
              Wp * ((get_properties_at_pressure g.pvt p).Bw).getD 1) /
            (interpolate_property g.pvt bgcol p - g.Bgi))
      else
        if |interpolate_property g.pvt bgcol p / g.Bgi - 1| < 1e-10 then
          .error "Denominator in GIIP calculation is too small. Check if pressure has changed from initial pressure."
        else
          .ok (Gp / (interpolate_property g.pvt bgcol p / g.Bgi - 1))) := by
  simp only [calculate_GIIP, hbg]
  by_cases hC : g.aquifer_influx = true ∨ 0 < We ∨ 0 < Wp <;>
    simp only [hC, if_pos, if_neg, ite_true, ite_false, not_false_iff]

/-- Closed-form instance of the amended C6: a well-conditioned dry-gas solve
on the gas witness returns `Gp/(Bg/Bgi − 1)`. -/
theorem gas_giip_spec_witness :
    witnessGas.pvt.Bg = some [2, 1] ∧
      calculate_GIIP witnessGas 10 100 0 0 = .ok 10 := by
  refine ⟨rfl, (gas_giip_spec witnessGas [2, 1] rfl 10 100 0 0).trans ?_⟩
  have hBg : interpolate_property witnessGas.pvt [2, 1] 100 = 2 := by
    norm_num [witnessGas, gasPVT, interpolate_property, linInterp, List.getLastD, List.headD]
  rw [hBg]
  norm_num [witnessGas]

/-- A two-constant round trip `x ↦ x·k1·k2` stays within relative tolerance
`t` of `x` when the constant product is within `t` of `1`. -/
theorem roundtrip_close {x k1 k2 t : ℚ} (hx : 0 < x) (h : |k1 * k2 - 1| ≤ t) :
    |x * k1 * k2 - x| ≤ t * x := by
  have hxx : x * k1 * k2 - x = (k1 * k2 - 1) * x := by ring
  rw [hxx, abs_mul, abs_of_pos hx]
  exact mul_le_mul_of_nonneg_right h hx.le

/-- **C8 (as stated) is false**: the field→metric→field *pressure* round trip
at the spec's own representative value 3000 psia misses by
`3000·|0.0703069·14.2233 − 1| ≈ 0.0116`, which exceeds the claimed `1e-6`
relative tolerance (`0.003`). -/
theorem pressure_roundtrip_exceeds_1e6 :
    scalarVal (pressure_from_metric (pressure_to_metric (.scalar 3000) .FIELD) .FIELD) =
        2999.98839231 ∧
      ¬(|scalarVal (pressure_from_metric (pressure_to_metric (.scalar 3000) .FIELD) .FIELD)
            - 3000| ≤ 1e-6 * 3000) := by
  have hv : scalarVal (pressure_from_metric (pressure_to_metric (.scalar 3000) .FIELD) .FIELD) =
      2999.98839231 := by
    show (3000 : ℚ) * PSIA_TO_KGFCM2 * KGFCM2_TO_PSIA = 2999.98839231
    norm_num [PSIA_TO_KGFCM2, KGFCM2_TO_PSIA]
  refine ⟨hv, fun h => ?_⟩
  rw [hv, show (2999.98839231 : ℚ) - 3000 = -0.01160769 by norm_num, abs_neg,
    abs_of_pos (by norm_num)] at h
  norm_num at h

/-- **C8 (amended).** For every positive value, each §4.1 field→metric→field
round trip (pressure, oil/water volume, gas volume, GOR, gas FVF, oil/water
FVF, temperature, compressibility) recovers the original value within `1e-5`
relative tolerance (the FVF and temperature round trips are exact; the
constant-product ones miss 1 by up to `3.87e-6`, which is why the claimed
`1e-6` fails but `1e-5` holds). -/
theorem unit_roundtrip_within_1e5 (x : ℚ) (hx : 0 < x) :
    |scalarVal (pressure_from_metric (pressure_to_metric (.scalar x) .FIELD) .FIELD) - x|
        ≤ 1e-5 * x ∧
      |scalarVal (oil_volume_from_metric (oil_volume_to_metric (.scalar x) .FIELD) .FIELD) - x|
        ≤ 1e-5 * x ∧
      |scalarVal (gas_volume_from_metric (gas_volume_to_metric (.scalar x) .FIELD) .FIELD) - x|
        ≤ 1e-5 * x ∧
      |scalarVal (rs_from_metric (rs_to_metric (.scalar x) .FIELD) .FIELD) - x|
        ≤ 1e-5 * x ∧
      |scalarVal (compressibility_from_metric
          (compressibility_to_metric (.scalar x) .FIELD) .FIELD) - x| ≤ 1e-5 * x ∧
      scalarVal (bg_from_metric (bg_to_metric (.scalar x) .FIELD) .FIELD) = x ∧
      scalarVal (bo_from_metric (bo_to_metric (.scalar x) .FIELD) .FIELD) = x ∧
      scalarVal (bw_from_metric (bw_to_metric (.scalar x) .FIELD) .FIELD) = x ∧
      temperature_from_kelvin (temperature_to_kelvin x .FIELD) .FIELD = x := by
  refine ⟨?_, ?_, ?_, ?_, ?_, ?_, rfl, rfl, ?_⟩
  · show |x * PSIA_TO_KGFCM2 * KGFCM2_TO_PSIA - x| ≤ 1e-5 * x
    exact roundtrip_close hx (by norm_num [PSIA_TO_KGFCM2, KGFCM2_TO_PSIA, abs_le])
  · show |x * STB_TO_M3 * M3_TO_STB - x| ≤ 1e-5 * x
    exact roundtrip_close hx (by norm_num [STB_TO_M3, M3_TO_STB, abs_le])
  · show |x * SCF_TO_M3 * M3_TO_SCF - x| ≤ 1e-5 * x
    exact roundtrip_close hx (by norm_num [SCF_TO_M3, M3_TO_SCF, abs_le])
  · show |x * SCFSTB_TO_M3M3 * M3M3_TO_SCFSTB - x| ≤ 1e-5 * x
    exact roundtrip_close hx
      (by norm_num [SCFSTB_TO_M3M3, M3M3_TO_SCFSTB, SCF_TO_M3, STB_TO_M3, M3_TO_SCF, M3_TO_STB, abs_le])
  · show |x * KGFCM2_TO_PSIA * PSIA_TO_KGFCM2 - x| ≤ 1e-5 * x
    exact roundtrip_close hx (by norm_num [PSIA_TO_KGFCM2, KGFCM2_TO_PSIA, abs_le])
  · show x * (RB_TO_M3 / SCF_TO_M3) * (SCF_TO_M3 / RB_TO_M3) = x
    rw [mul_assoc]
    norm_num [RB_TO_M3, SCF_TO_M3]
  · show ((x - 32) * 5 / 9 + 273.15 - 273.15) * 9 / 5 + 32 = x
    ring

/-- Closed-form instance of the amended C8 at the spec's representative
pressure value 3000 psia. -/
theorem unit_roundtrip_within_1e5_witness :
    (0 : ℚ) < 3000 ∧
      |scalarVal (pressure_from_metric (pressure_to_metric (.scalar 3000) .FIELD) .FIELD)
          - 3000| ≤ 1e-5 * 3000 :=
  ⟨by norm_num, (unit_roundtrip_within_1e5 3000 (by norm_num)).1⟩

/-- With the `METRIC` tag a converter returns the input values bit-exactly
unchanged, only normalised in shape by `to_scalar_if_single` (so a one-element
sequence comes back as the scalar holding its unchanged element). -/
def metricIdentityUpToShape (f : Value → UnitSystem → Value) : Prop :=
  ∀ v, f v .METRIC = to_scalar_if_single (to_array v)

/-- A converter returns as many values as it was given (a scalar counting as
one value). -/
def preservesCount (f : Value → UnitSystem → Value) : Prop :=
  ∀ v sys, (to_array (f v sys)).length = (to_array v).length

/-- `to_scalar_if_single` only re-tags; the underlying values are untouched. -/
theorem to_array_to_scalar_if_single (xs : List ℚ) :
    to_array (to_scalar_if_single xs) = xs :=
  match xs with
  | [] => rfl
  | [_] => rfl
  | _ :: _ :: _ => rfl

/-- Every `convertBy`-shaped converter is the identity up to shape on
`METRIC`. -/
theorem convertBy_metric (k : ℚ) : metricIdentityUpToShape (convertBy k) :=
  fun v => by simp [convertBy, metric_ne_field]

/-- Every `convertBy`-shaped converter preserves the number of values. -/
theorem convertBy_count (k : ℚ) : preservesCount (convertBy k) := by
  intro v sys
  cases sys <;> simp [convertBy, to_array_to_scalar_if_single, metric_ne_field]

/-- **C9 (as stated) is false**: a one-element sequence is *not* returned as a
sequence of the same length — even with the `METRIC` tag the converter
re-tags it as the bare scalar, so the function is not the identity on that
input. -/
theorem converter_singleton_counterexample :
    pressure_to_metric (Value.arr [3000]) .METRIC = Value.scalar 3000 ∧
      Value.scalar 3000 ≠ Value.arr [3000] :=
  ⟨rfl, fun h => Value.noConfusion h⟩

/-- **C9 (amended).** Every `UnitConverter` value-conversion function
(pressure, oil/water/gas/reservoir volume, FVFs, GOR, compressibility — the
scalar-only temperature functions excluded, their metric convention being the
°C→K shift) returns as many values as it was given, a single value coming
back as a scalar; and with the `METRIC` tag it returns the input values
bit-exactly unchanged, so it is the identity except that a one-element
sequence is returned as the scalar holding its unchanged element. -/
theorem converters_shape_and_metric_identity :
    (metricIdentityUpToShape pressure_to_metric ∧ preservesCount pressure_to_metric) ∧
    (metricIdentityUpToShape pressure_from_metric ∧ preservesCount pressure_from_metric) ∧
    (metricIdentityUpToShape oil_volume_to_metric ∧ preservesCount oil_volume_to_metric) ∧
    (metricIdentityUpToShape oil_volume_from_metric ∧ preservesCount oil_volume_from_metric) ∧
    (metricIdentityUpToShape gas_volume_to_metric ∧ preservesCount gas_volume_to_metric) ∧
    (metricIdentityUpToShape gas_volume_from_metric ∧ preservesCount gas_volume_from_metric) ∧
    (metricIdentityUpToShape reservoir_volume_to_metric ∧
      preservesCount reservoir_volume_to_metric) ∧
    (metricIdentityUpToShape reservoir_volume_from_metric ∧
      preservesCount reservoir_volume_from_metric) ∧
    (metricIdentityUpToShape bo_to_metric ∧ preservesCount bo_to_metric) ∧
    (metricIdentityUpToShape bo_from_metric ∧ preservesCount bo_from_metric) ∧
    (metricIdentityUpToShape bw_to_metric ∧ preservesCount bw_to_metric) ∧
    (metricIdentityUpToShape bw_from_metric ∧ preservesCount bw_from_metric) ∧
    (metricIdentityUpToShape bg_to_metric ∧ preservesCount bg_to_metric) ∧
    (metricIdentityUpToShape bg_from_metric ∧ preservesCount bg_from_metric) ∧
    (metricIdentityUpToShape rs_to_metric ∧ preservesCount rs_to_metric) ∧
    (metricIdentityUpToShape rs_from_metric ∧ preservesCount rs_from_metric) ∧
    (metricIdentityUpToShape compressibility_to_metric ∧
      preservesCount compressibility_to_metric) ∧
    (metricIdentityUpToShape compressibility_from_metric ∧
      preservesCount compressibility_from_metric) :=
  ⟨⟨convertBy_metric _, convertBy_count _⟩, ⟨convertBy_metric _, convertBy_count _⟩,
    ⟨convertBy_metric _, convertBy_count _⟩, ⟨convertBy_metric _, convertBy_count _⟩,
    ⟨convertBy_metric _, convertBy_count _⟩, ⟨convertBy_metric _, convertBy_count _⟩,
    ⟨convertBy_metric _, convertBy_count _⟩, ⟨convertBy_metric _, convertBy_count _⟩,
    ⟨fun _ => rfl, fun v _ => by rw [bo_to_metric, to_array_to_scalar_if_single]⟩,
    ⟨fun _ => rfl, fun v _ => by rw [bo_from_metric, to_array_to_scalar_if_single]⟩,
    ⟨fun _ => rfl, fun v _ => by rw [bw_to_metric, to_array_to_scalar_if_single]⟩,
    ⟨fun _ => rfl, fun v _ => by rw [bw_from_metric, to_array_to_scalar_if_single]⟩,
    ⟨convertBy_metric _, convertBy_count _⟩, ⟨convertBy_metric _, convertBy_count _⟩,
    ⟨convertBy_metric _, convertBy_count _⟩, ⟨convertBy_metric _, convertBy_count _⟩,
    ⟨convertBy_metric _, convertBy_count _⟩, ⟨convertBy_metric _, convertBy_count _⟩⟩

/-- Every element of a list is bounded by `foldl max` seeded at any value. -/
theorem foldl_max_bounds (t : List ℚ) : ∀ a : ℚ,
    a ≤ t.foldl max a ∧ ∀ x ∈ t, x ≤ t.foldl max a := by
  induction t with
  | nil => exact fun a => ⟨le_refl a, by simp⟩
  | cons b t ih =>
    intro a
    refine ⟨le_trans (le_max_left a b) (ih (max a b)).1, fun x hx => ?_⟩
    rcases List.mem_cons.mp hx with rfl | hx
    · exact le_trans (le_max_right a x) (ih (max a x)).1
    · exact (ih (max a b)).2 x hx

/-- `foldl max` lands on its seed or on a list element. -/
theorem foldl_max_mem (t : List ℚ) : ∀ a : ℚ,
    t.foldl max a = a ∨ t.foldl max a ∈ t := by
  induction t with
  | nil => exact fun a => .inl rfl
  | cons b t ih =>
    intro a
    rcases ih (max a b) with h | h
    · rcases max_choice a b with hm | hm
      · exact .inl (by rw [List.foldl_cons, h, hm])
      · exact .inr (by rw [List.foldl_cons, h, hm]; exact List.mem_cons_self b t)
    · exact .inr (List.mem_cons_of_mem b h)

/-- Every element of a list is at most its `np.max`. -/
theorem mem_le_maxList {l : List ℚ} (x : ℚ) (hx : x ∈ l) : x ≤ maxList l := by
  cases l with
  | nil => cases hx
  | cons a t =>
    rcases List.mem_cons.mp hx with rfl | hx
    · exact (foldl_max_bounds t x).1
    · exact (foldl_max_bounds t a).2 x hx

/-- On a nonempty list, `np.max` is attained. -/
theorem maxList_mem {l : List ℚ} (hne : l ≠ []) : maxList l ∈ l := by
  cases l with
  | nil => exact absurd rfl hne
  | cons a t =>
    rcases foldl_max_mem t a with h | h
    · rw [maxList, h]; exact List.mem_cons_self a t
    · exact List.mem_cons_of_mem a h

/-- Before the first occurrence of `a`, every entry differs from `a`
(`np.argmax` returns the *first* maximising index). -/
theorem getD_ne_of_lt_indexOf : ∀ (l : List ℚ) (a : ℚ) (j : Nat),
    j < l.indexOf a → l.getD j 0 ≠ a := by
  intro l
  induction l with
  | nil => intro a j h; simp [List.indexOf] at h
  | cons b t ih =>
    intro a j h
    by_cases hba : b = a
    · rw [List.indexOf_cons_eq t hba] at h
      exact absurd h (Nat.not_lt_zero j)
    · rw [List.indexOf_cons_ne t hba] at h
      cases j with
      | zero => exact hba
      | succ j => exact ih a j (Nat.lt_of_succ_lt_succ h)

/-- Reading inside the bounds of a list yields a member. -/
theorem getD_mem_of_lt {l : List ℚ} {i : Nat} (h : i < l.length) : l.getD i 0 ∈ l := by
  rw [List.getD_eq_getElem?_getD, List.getElem?_eq_getElem h, Option.getD_some]
  exact List.getElem_mem h

/-- Reading a list at the index of a member returns that member. -/
theorem getD_indexOf {l : List ℚ} {a : ℚ} (h : a ∈ l) : l.getD (l.indexOf a) 0 = a := by
  have hlt := List.indexOf_lt_length.mpr h
  rw [List.getD_eq_getElem?_getD, List.getElem?_eq_getElem hlt, Option.getD_some]
  exact List.getElem_indexOf hlt

/-- **C7.** For every candidate grid and production series, the gas-cap
calibration returns the grid value at the first index maximising R² (ties
broken by first occurrence in grid order); and with fewer than 2 production
points every candidate's R² is 0 and the search still returns a value from
the grid. -/
theorem optimal_m_first_max (r : OilReservoir) (pd : ProductionData)
    (m_values We_values : List ℚ) (hne : m_values ≠ []) :
    ∃ k, k < m_values.length ∧
      (determine_optimal_m r pd m_values We_values).1 = m_values.getD k 0 ∧
      (∀ j, j < m_values.length →
        (determine_optimal_m r pd m_values We_values).2.getD j 0 ≤
          (determine_optimal_m r pd m_values We_values).2.getD k 0) ∧
      (∀ j, j < k →
        (determine_optimal_m r pd m_values We_values).2.getD j 0 <
          (determine_optimal_m r pd m_values We_values).2.getD k 0) ∧
      (pd.time.length < 2 → ∀ q ∈ (determine_optimal_m r pd m_values We_values).2, q = 0) := by
  have hlen : (determine_optimal_m r pd m_values We_values).2.length = m_values.length := by
    simp [determine_optimal_m]
  have hrne : (determine_optimal_m r pd m_values We_values).2 ≠ [] := by
    intro hnil
    rw [hnil] at hlen
    exact hne (List.length_eq_zero.mp hlen.symm)
  have hmax := maxList_mem hrne
  have hkmax : (determine_optimal_m r pd m_values We_values).2.getD
      (argmaxList (determine_optimal_m r pd m_values We_values).2) 0 =
        maxList (determine_optimal_m r pd m_values We_values).2 :=
    getD_indexOf hmax
  refine ⟨argmaxList (determine_optimal_m r pd m_values We_values).2,
    hlen ▸ List.indexOf_lt_length.mpr hmax, rfl, fun j hj => ?_, fun j hj => ?_, ?_⟩
  · rw [hkmax]
    exact mem_le_maxList _ (getD_mem_of_lt (hlen ▸ hj))
  · have hjlen : j < (determine_optimal_m r pd m_values We_values).2.length :=
      lt_trans hj (List.indexOf_lt_length.mpr hmax)
    refine lt_of_le_of_ne (by rw [hkmax]; exact mem_le_maxList _ (getD_mem_of_lt hjlen)) ?_
    rw [hkmax]
    exact getD_ne_of_lt_indexOf _ _ j hj
  · intro hn q hq
    simp only [determine_optimal_m] at hq
    rcases List.mem_map.mp hq with ⟨m, _, rfl⟩
    rw [r_squared_for, if_neg]
    intro h1
    rw [List.length_zipWith] at h1
    simp only [List.length_map, List.length_range] at h1
    omega

/-- An empty production history (the degenerate fewer-than-2-points case). -/
def witnessEmptyPD : ProductionData :=
  { time := [], Np := [], Gp := [], Wp := [], pressure := [] }

/-- Closed-form instance of C7: on a degenerate (empty) production history the
search still returns the first grid candidate, every candidate's R² being 0. -/
theorem optimal_m_first_max_witness :
    ([(0.1 : ℚ), 0.2] ≠ ([] : List ℚ)) ∧
      (determine_optimal_m witnessOil witnessEmptyPD [0.1, 0.2] []).1 = 0.1 ∧
      ∀ q ∈ (determine_optimal_m witnessOil witnessEmptyPD [0.1, 0.2] []).2, q = 0 := by
  have hne : ([(0.1 : ℚ), 0.2] ≠ ([] : List ℚ)) := by simp
  obtain ⟨k, _, _, _, _, hdeg⟩ :=
    optimal_m_first_max witnessOil witnessEmptyPD [0.1, 0.2] [] hne
  refine ⟨hne, ?_, hdeg (by norm_num [witnessEmptyPD])⟩
  norm_num [determine_optimal_m, witnessEmptyPD, r_squared_for, argmaxList, maxList,
    List.indexOf_cons_self]

/-! ### `np.interp` boundary and exactness facts (for C3) -/

/-- Below (or at) the first sample the interpolant clamps to the first
value. -/
theorem linInterp_clamp_low (x : ℚ) (p : ℚ × ℚ) (l : List (ℚ × ℚ)) (hx : x ≤ p.1) :
    linInterp x (p :: l) = p.2 := by
  rcases p with ⟨x0, y0⟩
  cases l with
  | nil => rfl
  | cons q t =>
    rcases q with ⟨x1, y1⟩
    simp only [linInterp, if_pos hx]

/-- In a chain sorted on first components, the head's first component is at
most the last pair's. -/
theorem fst_le_getLastD : ∀ (t : List (ℚ × ℚ)) (b : ℚ × ℚ),
    (b :: t).Pairwise (fun a c => a.1 < c.1) → b.1 ≤ (t.getLastD b).1 := by
  intro t
  induction t with
  | nil => exact fun b _ => le_refl _
  | cons c t ih =>
    intro b hpw
    have hbc : b.1 < c.1 := (List.pairwise_cons.mp hpw).1 c (List.mem_cons_self c t)
    rw [List.getLastD_cons]
    exact le_trans hbc.le (ih c (List.pairwise_cons.mp hpw).2)

/-- The last pair (with default seed) is a member of the seeded list. -/
theorem getLastD_mem : ∀ (t : List (ℚ × ℚ)) (b : ℚ × ℚ), t.getLastD b ∈ b :: t := by
  intro t
  induction t with
  | nil => exact fun b => List.mem_cons_self b []
  | cons c t ih =>
    intro b
    rw [List.getLastD_cons]
    exact List.mem_cons_of_mem b (ih c)

/-- Above (or at) the last sample the interpolant clamps to the last value. -/
theorem linInterp_clamp_high (x : ℚ) :
    ∀ (l : List (ℚ × ℚ)) (p : ℚ × ℚ),
      (p :: l).Pairwise (fun a c => a.1 < c.1) →
      (l.getLastD p).1 ≤ x →
      linInterp x (p :: l) = (l.getLastD p).2 := by
  intro l
  induction l with
  | nil =>
    intro p _ _
    rcases p with ⟨x0, y0⟩
    rfl
  | cons b t ih =>
    intro a hpw hlast
    obtain ⟨ha, hpwb⟩ := List.pairwise_cons.mp hpw
    have hab : a.1 < b.1 := ha b (List.mem_cons_self b t)
    have hble : b.1 ≤ (t.getLastD b).1 := fst_le_getLastD t b hpwb
    have hlast2 : (t.getLastD b).1 ≤ x := by
      rwa [List.getLastD_cons] at hlast
    have hax : a.1 < x := lt_of_lt_of_le hab (le_trans hble hlast2)
    rw [List.getLastD_cons]
    rcases a with ⟨x0, y0⟩
    rcases b with ⟨x1, y1⟩
    cases t with
    | nil =>
      simp only [List.getLastD] at hlast2 ⊢
      show (if x ≤ x0 then y0
        else if x ≤ x1 then y0 + (y1 - y0) * (x - x0) / (x1 - x0)
        else linInterp x [(x1, y1)]) = y1
      rw [if_neg (not_le.mpr hax)]
      by_cases hxb : x ≤ x1
      · have hxx : x = x1 := le_antisymm hxb hlast2
        have hne : x1 - x0 ≠ 0 := sub_ne_zero_of_ne (ne_of_gt hab)
        rw [if_pos hxb, hxx, mul_div_assoc, div_self hne, mul_one]
        ring
      · rw [if_neg hxb]
        rfl
    | cons c t2 =>
      obtain ⟨hb, hpwc⟩ := List.pairwise_cons.mp hpwb
      have hbc : x1 < c.1 := hb c (List.mem_cons_self c t2)
      have hcle : c.1 ≤ (t2.getLastD c).1 := fst_le_getLastD t2 c hpwc
      have hlast3 : (t2.getLastD c).1 ≤ x := by
        rwa [List.getLastD_cons] at hlast2
      have hbx : x1 < x := lt_of_lt_of_le hbc (le_trans hcle hlast3)
      show (if x ≤ x0 then y0
        else if x ≤ x1 then y0 + (y1 - y0) * (x - x0) / (x1 - x0)
        else linInterp x ((x1, y1) :: c :: t2)) = ((c :: t2).getLastD (x1, y1)).2
      rw [if_neg (not_le.mpr hax), if_neg (not_le.mpr hbx)]
      exact ih (x1, y1) hpwb (by rwa [List.getLastD_cons])

/-- Reading inside the bounds of a pair list yields a member (generic default
version of `getD_mem_of_lt`). -/
theorem getD_mem_of_lt_pair {l : List (ℚ × ℚ)} {i : Nat} (d : ℚ × ℚ) (h : i < l.length) :
    l.getD i d ∈ l := by
  rw [List.getD_eq_getElem?_getD, List.getElem?_eq_getElem h, Option.getD_some]
  exact List.getElem_mem h

/-- At an exact sample point the interpolant returns that sample's value
exactly. -/
theorem linInterp_exact :
    ∀ (l : List (ℚ × ℚ)), l.Pairwise (fun a c => a.1 < c.1) →
      ∀ i, (hi : i < l.length) →
        linInterp (l.getD i (0, 0)).1 l = (l.getD i (0, 0)).2 := by
  intro l
  induction l with
  | nil => intro _ i hi; cases hi
  | cons a l ih =>
    intro hpw i hi
    obtain ⟨ha, hpwl⟩ := List.pairwise_cons.mp hpw
    cases i with
    | zero =>
      exact linInterp_clamp_low _ a l (le_refl _)
    | succ j =>
      have hj : j < l.length := Nat.lt_of_succ_lt_succ hi
      have hgd : ((a :: l).getD (j + 1) (0, 0)) = l.getD j (0, 0) := by
        simp [List.getD_cons_succ]
      rw [hgd]
      have hq : l.getD j (0, 0) ∈ l := getD_mem_of_lt_pair (0, 0) hj
      have haq : a.1 < (l.getD j (0, 0)).1 := ha _ hq
      cases l with
      | nil => cases hj
      | cons b t =>
        rcases a with ⟨x0, y0⟩
        rcases b with ⟨x1, y1⟩
        obtain ⟨hb, hpwt⟩ := List.pairwise_cons.mp hpwl
        show (if ((((x1, y1) : ℚ × ℚ) :: t).getD j (0, 0)).1 ≤ x0 then y0
          else if (((x1, y1) :: t).getD j (0, 0)).1 ≤ x1 then
            y0 + (y1 - y0) * ((((x1, y1) :: t).getD j (0, 0)).1 - x0) / (x1 - x0)
          else linInterp (((x1, y1) :: t).getD j (0, 0)).1 ((x1, y1) :: t)) = _
        rw [if_neg (not_le.mpr haq)]
        cases j with
        | zero =>
          simp only [List.getD_cons_zero] at haq ⊢
          have hne : x1 - x0 ≠ 0 := sub_ne_zero_of_ne (ne_of_gt haq)
          rw [if_pos (le_refl _), mul_div_assoc]
          show y0 + (y1 - y0) * ((x1 - x0) / (x1 - x0)) = y1
          rw [div_self hne, mul_one]
          ring
        | succ k =>
          have hk : k < t.length := Nat.lt_of_succ_lt_succ hj
          have hgd2 : (((x1, y1) : ℚ × ℚ) :: t).getD (k + 1) (0, 0) = t.getD k (0, 0) := by
            simp [List.getD_cons_succ]
          rw [hgd2]
          have hbq : x1 < (t.getD k (0, 0)).1 :=
            hb _ (getD_mem_of_lt_pair (0, 0) hk)
          rw [if_neg (not_le.mpr hbq)]
          have := ih hpwl (k + 1) hj
          rwa [hgd2] at this

/-- Sortedness of the pressure column transfers to the zipped sample list. -/
theorem zip_pairwise {ps ys : List ℚ} (hp : ps.Pairwise (· < ·))
    (hlen : ps.length ≤ ys.length) :
    (ps.zip ys).Pairwise (fun a c => a.1 < c.1) := by
  have hmap : (ps.zip ys).map Prod.fst = ps := List.map_fst_zip ps ys hlen
  rw [← hmap] at hp
  exact List.pairwise_map.mp hp

/-- Indexing a zip is indexing the two columns. -/
theorem zip_getD {ps ys : List ℚ} (hlen : ys.length = ps.length) {i : Nat}
    (hi : i < ps.length) :
    (ps.zip ys).getD i (0, 0) = (ps.getD i 0, ys.getD i 0) := by
  have hiy : i < ys.length := by omega
  have hz : i < (ps.zip ys).length := by
    rw [List.length_zip]
    omega
  rw [List.getD_eq_getElem?_getD, List.getElem?_eq_getElem hz, Option.getD_some,
    List.getElem_zip, List.getD_eq_getElem?_getD, List.getElem?_eq_getElem hi,
    List.getD_eq_getElem?_getD, List.getElem?_eq_getElem hiy, Option.getD_some,
    Option.getD_some]

/-- The default seed of `getLastD` is irrelevant on a nonempty list. -/
theorem getLastD_default_irrel {α : Type} (c : α) (t : List α) (d d' : α) :
    (c :: t).getLastD d = (c :: t).getLastD d' := by
  rw [List.getLastD_cons, List.getLastD_cons]

/-- The last pair of a zip is the pair of lasts. -/
theorem zip_getLastD : ∀ (ps ys : List ℚ), ys.length = ps.length → ps ≠ [] →
    (ps.zip ys).getLastD (0, 0) = (ps.getLastD 0, ys.getLastD 0) := by
  intro ps
  induction ps with
  | nil => intro ys _ hne; exact absurd rfl hne
  | cons a ps ih =>
    intro ys hlen _
    cases ys with
    | nil => simp at hlen
    | cons b ys2 =>
      rw [List.zip_cons_cons, List.getLastD_cons, List.getLastD_cons, List.getLastD_cons]
      cases ps with
      | nil =>
        have : ys2 = [] := by
          simpa using List.length_eq_zero.mp (by simpa using hlen)
        subst this
        rfl
      | cons a2 ps2 =>
        cases ys2 with
        | nil => simp at hlen
        | cons b2 ys3 =>
          rw [List.zip_cons_cons, getLastD_default_irrel (a2, b2) (ps2.zip ys3) (a, b) (0, 0),
            ← List.zip_cons_cons]
          exact ih (b2 :: ys3) (by simpa using hlen) (by simp)

/-- In a strictly sorted nonempty chain the head bounds the seeded last. -/
theorem le_getLastD_of_sorted : ∀ (t : List ℚ) (b : ℚ),
    (b :: t).Pairwise (· < ·) → b ≤ t.getLastD b := by
  intro t
  induction t with
  | nil => exact fun b _ => le_refl b
  | cons c t ih =>
    intro b hpw
    have hbc : b < c := (List.pairwise_cons.mp hpw).1 c (List.mem_cons_self c t)
    rw [List.getLastD_cons]
    exact le_trans hbc.le (ih c (List.pairwise_cons.mp hpw).2)

/-- The seeded last of a rational list is a member of the seeded list. -/
theorem getLastD_mem_rat : ∀ (t : List ℚ) (b : ℚ), t.getLastD b ∈ b :: t := by
  intro t
  induction t with
  | nil => exact fun b => List.mem_cons_self b []
  | cons c t ih =>
    intro b
    rw [List.getLastD_cons]
    exact List.mem_cons_of_mem b (ih c)

/-- A strictly increasing pressure column has its head at most its last. -/
theorem sorted_headD_le_getLastD {ps : List ℚ} (hne : ps ≠ [])
    (hs : ps.Pairwise (· < ·)) : ps.headD 0 ≤ ps.getLastD 0 := by
  cases ps with
  | nil => exact absurd rfl hne
  | cons a t =>
    rw [List.headD_cons, List.getLastD_cons]
    exact le_getLastD_of_sorted t a hs

/-- With at least two samples, a strictly increasing pressure column has its
head strictly below its last. -/
theorem sorted_headD_lt_getLastD {ps : List ℚ} (h2 : 1 < ps.length)
    (hs : ps.Pairwise (· < ·)) : ps.headD 0 < ps.getLastD 0 := by
  cases ps with
  | nil => simp at h2
  | cons a t =>
    cases t with
    | nil => simp at h2
    | cons b t2 =>
      rw [List.headD_cons, List.getLastD_cons, List.getLastD_cons]
      exact (List.pairwise_cons.mp hs).1 _ (getLastD_mem_rat t2 b)

/-- Reversing swaps head and last (headD side). -/
theorem reverse_headD (ps : List ℚ) : ps.reverse.headD 0 = ps.getLastD 0 := by
  rw [List.headD_eq_head?, List.head?_reverse, List.getLastD_eq_getLast?]

/-- Reversing swaps head and last (getLastD side). -/
theorem reverse_getLastD (ps : List ℚ) : ps.reverse.getLastD 0 = ps.headD 0 := by
  rw [List.getLastD_eq_getLast?, List.getLast?_reverse, List.headD_eq_head?]

/-- **C3.** For a PVT lookup on a supplied property over a strictly increasing
pressure column: a target below the smallest (or above the largest) sampled
pressure returns the boundary sample's value unchanged; a target equal to a
sample returns that sample's value exactly; and a table storing the same data
with the pressure column reversed (decreasing order) is internally reordered
and returns the same result for every target. -/
theorem interpolate_boundary_exact_reorder (ps ys : List ℚ) (t tR : PVTProperties)
    (hp : t.pressure = ps) (hpR : tR.pressure = ps.reverse)
    (hlen : ys.length = ps.length) (hne : ps ≠ [])
    (hsorted : ps.Pairwise (· < ·)) :
    (∀ x, x ≤ ps.headD 0 → interpolate_property t ys x = ys.headD 0) ∧
      (∀ x, ps.getLastD 0 ≤ x → interpolate_property t ys x = ys.getLastD 0) ∧
      (∀ i, i < ps.length → interpolate_property t ys (ps.getD i 0) = ys.getD i 0) ∧
      (∀ x, interpolate_property tR ys.reverse x = interpolate_property t ys x) := by
  have hcond : ¬(1 < ps.length ∧ ps.getLastD 0 < ps.headD 0) := by
    rintro ⟨_, h2⟩
    exact absurd h2 (not_lt.mpr (sorted_headD_le_getLastD hne hsorted))
  have hsimp : ∀ x, interpolate_property t ys x = linInterp x (ps.zip ys) := by
    intro x
    rw [interpolate_property, hp, if_neg hcond]
  have hpw : (ps.zip ys).Pairwise (fun a c => a.1 < c.1) :=
    zip_pairwise hsorted (le_of_eq hlen.symm)
  refine ⟨?_, ?_, ?_, ?_⟩
  · intro x hx
    rw [hsimp]
    cases ps with
    | nil => exact absurd rfl hne
    | cons a tl =>
      cases ys with
      | nil => simp at hlen
      | cons b u =>
        rw [List.zip_cons_cons]
        rw [List.headD_cons] at hx
        rw [List.headD_cons]
        exact linInterp_clamp_low x (a, b) (tl.zip u) hx
  · intro x hx
    rw [hsimp]
    cases ps with
    | nil => exact absurd rfl hne
    | cons a tl =>
      cases ys with
      | nil => simp at hlen
      | cons b u =>
        have hlast : (tl.zip u).getLastD (a, b) =
            ((a :: tl).getLastD 0, (b :: u).getLastD 0) := by
          rw [← List.getLastD_cons (0, 0) (a, b) (tl.zip u), ← List.zip_cons_cons]
          exact zip_getLastD (a :: tl) (b :: u) hlen (by simp)
        have hpw2 : ((a, b) :: tl.zip u).Pairwise (fun a c => a.1 < c.1) := by
          rwa [List.zip_cons_cons] at hpw
        rw [List.zip_cons_cons]
        rw [linInterp_clamp_high x (tl.zip u) (a, b) hpw2 (by rw [hlast]; exact hx), hlast]
  · intro i hi
    rw [hsimp]
    have hz := zip_getD hlen hi
    have hex := linInterp_exact (ps.zip ys) hpw i
      (by rw [List.length_zip, hlen, min_self]; exact hi)
    rw [hz] at hex
    exact hex
  · intro x
    rw [interpolate_property, interpolate_property, hp, hpR,
      if_neg hcond]
    by_cases h2 : 1 < ps.length
    · rw [if_pos ⟨by simpa using h2,
        by rw [reverse_headD, reverse_getLastD]; exact sorted_headD_lt_getLastD h2 hsorted⟩,
        List.reverse_reverse, List.reverse_reverse]
    · have hps1 : ps.length = 1 := by
        have := List.length_pos.mpr hne
        omega
      obtain ⟨a, rfl⟩ := List.length_eq_one.mp hps1
      obtain ⟨b, rfl⟩ := List.length_eq_one.mp (hlen.trans hps1)
      rw [if_neg (by simp)]
      rfl

/-- The witness PVT table stored with its pressure column reversed
(decreasing order). -/
def witnessPVTRev : PVTProperties :=
  { pressure := [200, 100], Bo := [1.1, 1.2], Rs := [60, 50],
    Bg := some [0.005, 0.01], Bw := some [1, 1] }

/-- Closed-form instance of C3 on the witness table: clamping below/above the
sampled range, exactness at a sample, and agreement between the
decreasing-order and increasing-order tables. -/
theorem interpolate_boundary_exact_reorder_witness :
    interpolate_property witnessPVT [(1.2 : ℚ), 1.1] 50 = 1.2 ∧
      interpolate_property witnessPVT [(1.2 : ℚ), 1.1] 250 = 1.1 ∧
      interpolate_property witnessPVT [(1.2 : ℚ), 1.1] 200 = 1.1 ∧
      interpolate_property witnessPVTRev [(1.1 : ℚ), 1.2] 150 =
        interpolate_property witnessPVT [(1.2 : ℚ), 1.1] 150 := by
  obtain ⟨h1, h2, h3, h4⟩ := interpolate_boundary_exact_reorder [100, 200] [1.2, 1.1]
    witnessPVT witnessPVTRev rfl (by simp [witnessPVTRev]) (by norm_num) (by simp)
    (by norm_num [List.pairwise_cons])
  refine ⟨?_, ?_, ?_, h4 150⟩
  · simpa using h1 50 (by norm_num)
  · simpa using h2 250 (by norm_num)
  · simpa using h3 1 (by norm_num)

end MaterialBalance
